import Mathlib

/-!
Verification of the yield / cash-flow analytics core of the `market-data`
repository.

The numerical core works on Python `Decimal` values with
`getcontext().prec = 50`; the source raises the precision precisely so that
Decimal arithmetic behaves like exact arithmetic over the magnitudes involved.
We therefore model `Decimal` scalars as exact rationals (`ℚ`) for the
Newton-Raphson solver, and as real numbers (`ℝ`) for the closed-form rate
conversions that involve genuinely irrational powers (`x ** (1/12)`,
`x ** (365/days)`).

Dates are modelled by their day ordinal (`ℤ`); `(d1 - d2).days` becomes plain
integer subtraction.
-/

set_option maxRecDepth 20000

/-- One cash-flow entry of `calculate_tir` (from
`src/src/domain/financial_math.py`): the payment date as an integer day
ordinal, and the payment amount. -/
abbrev CashFlow := ℤ × ℚ

/-- Model of `Decimal.__pow__` used by the solver: for the integer exponents
exercised in the concrete schedules below (`days/365` with `days` a multiple
of 365) the Decimal power is the exact integer power, modelled as
`b ^ e.num`.  Solver theorems whose content does not depend on the values of
the power function are stated for an arbitrary power function `pw`. -/
def qpowExact (b e : ℚ) : ℚ := b ^ e.num

/-- The inner `npv` function of `calculate_tir`
(`src/src/domain/financial_math.py`, lines 40-54): `NaN` (modelled as `none`)
when `1 + rate ≤ 0`, otherwise
`Σ amount_i / (1+rate)^((date_i - settlement)/365) − price`.
The day count is ACT/365 on calendar days. -/
def npv (pw : ℚ → ℚ → ℚ) (future : List CashFlow) (settlement : ℤ)
    (price rate : ℚ) : Option ℚ :=
  if 1 + rate ≤ 0 then none
  else
    some ((future.map
      (fun cf => cf.2 / pw (1 + rate) (((cf.1 - settlement : ℤ) : ℚ) / 365))).sum - price)

/-- The inner `d_npv` function of `calculate_tir`
(`src/src/domain/financial_math.py`, lines 56-72): `NaN` (`none`) when
`1 + rate ≤ 0`, otherwise
`− Σ amount_i · exp_i / (1+rate)^(exp_i + 1)` with `exp_i = days_i/365`. -/
def d_npv (pw : ℚ → ℚ → ℚ) (future : List CashFlow) (settlement : ℤ)
    (rate : ℚ) : Option ℚ :=
  if 1 + rate ≤ 0 then none
  else
    some (-(future.map
      (fun cf => cf.2 * (((cf.1 - settlement : ℤ) : ℚ) / 365) /
        pw (1 + rate) ((((cf.1 - settlement : ℤ) : ℚ) / 365) + 1))).sum)

/-- The Newton-Raphson loop of `calculate_tir`
(`src/src/domain/financial_math.py`, lines 74-105).  Per iteration: compute
`npv` and `d_npv`; a `NaN` in either aborts with failure; `|npv| < 1e-9`
returns the current guess; a zero derivative aborts with failure; otherwise
take the Newton step.  `fuel` is the remaining iteration budget (100 at the
top level); exhausting it is the not-converged failure. -/
def tirLoop (pw : ℚ → ℚ → ℚ) (future : List CashFlow) (settlement : ℤ)
    (price guess : ℚ) : ℕ → Option ℚ
  | 0 => none
  | n + 1 =>
    match npv pw future settlement price guess, d_npv pw future settlement guess with
    | some v, some dv =>
      if |v| < 1 / 1000000000 then some guess
      else if dv = 0 then none
      else tirLoop pw future settlement price (guess - v / dv) n
    | _, _ => none

/-- `calculate_tir` (`src/src/domain/financial_math.py`, lines 11-105):
rejects an empty schedule or a non-positive price, filters the schedule down
to the entries strictly after the settlement date, fails when nothing
remains, and otherwise runs 100 Newton-Raphson iterations from the initial
guess `0.1`.  All failure exits of the source return Python `None`, modelled
as `none`. -/
def calculate_tir (pw : ℚ → ℚ → ℚ) (cashflows : List CashFlow) (price : ℚ)
    (settlement : ℤ) : Option ℚ :=
  if cashflows = [] ∨ price ≤ 0 then none
  else if cashflows.filter (fun cf => decide (settlement < cf.1)) = [] then none
  else tirLoop pw (cashflows.filter fun cf => decide (settlement < cf.1))
    settlement price (1 / 10) 100

/-- `calculate_tem_from_tea` (`src/domain/financial_math.py`, lines 25-30,
float arithmetic modelled as ℝ): `(1+tea)^(1/12) − 1`, with a defensive
fallback of `0` when `tea ≤ −1`. -/
noncomputable def calculate_tem_from_tea (tea : ℝ) : ℝ :=
  if tea ≤ -1 then 0 else (1 + tea) ^ ((1 : ℝ) / 12) - 1

/-- `convert_tirea_to_tem` (`src/src/domain/financial_math.py`, lines
145-150, Decimal arithmetic modelled as ℝ): `(1+tea)^(1/12) − 1`, but with a
fallback of `−1` (not `0`) when the input is `≤ −1`. -/
noncomputable def convert_tirea_to_tem (tirea_anual : ℝ) : ℝ :=
  if tirea_anual ≤ -1 then -1 else (1 + tirea_anual) ^ ((1 : ℝ) / 12) - 1

/-- The `method` string of `calculate_irr_from_price_and_payoff`:
`"simple"` selects simple-interest annualization, anything else (the default
`"compound"`) the compound closed form. -/
inductive IrrMethod
  | simple
  | compound

/-- The dict `{"TIR": …, "TEA": …, "TEM": …, "TNA": …}` returned by
`calculate_irr_from_price_and_payoff`; `none` models Python `None`. -/
structure YieldBundle where
  TIR : Option ℝ
  TEA : Option ℝ
  TEM : Option ℝ
  TNA : Option ℝ

/-- The TIR computed inside `calculate_irr_from_price_and_payoff`
(`src/domain/financial_math.py`, lines 72-92): simple-interest
annualization `((payoff − price)/price)·(365/days)` or the zero-coupon
compound closed form `(payoff/price)^(365/days) − 1`. -/
noncomputable def irrTir (cp fp : ℝ) (days : ℤ) : IrrMethod → ℝ
  | .simple => (fp - cp) / cp * (365 / (days : ℝ))
  | .compound => (fp / cp) ^ ((365 : ℝ) / (days : ℝ)) - 1

/-- `calculate_irr_from_price_and_payoff` (`src/domain/financial_math.py`,
lines 43-109).  Non-positive price, payoff or days yield the all-`None`
dict.  Otherwise TIR is computed by `irrTir`, TEA is set equal to TIR, TEM
is the compound monthly conversion of TEA and TNA is `TEM·12`.  When
`1 + TEA < 0` (possible only in the simple branch) the Decimal power of a
negative base raises `InvalidOperation`, which the enclosing
`except` turns into the all-`None` dict. -/
noncomputable def calculate_irr_from_price_and_payoff (cp fp : ℝ) (days : ℤ)
    (method : IrrMethod) : YieldBundle :=
  if cp ≤ 0 ∨ fp ≤ 0 ∨ days ≤ 0 then ⟨none, none, none, none⟩
  else if 1 + irrTir cp fp days method < 0 then ⟨none, none, none, none⟩
  else
    ⟨some (irrTir cp fp days method), some (irrTir cp fp days method),
      some ((1 + irrTir cp fp days method) ^ ((1 : ℝ) / 12) - 1),
      some (((1 + irrTir cp fp days method) ^ ((1 : ℝ) / 12) - 1) * 12)⟩

/-- The dict `{"TNA": …, "TEA": …, "TEM": …}` returned by
`BondAnalyzer._calculate_rates_from_api_tir`. -/
structure ApiRates where
  TNA : Option ℝ
  TEA : Option ℝ
  TEM : Option ℝ

/-- `BondAnalyzer._calculate_rates_from_api_tir`
(`src/application/bond_analyzer.py`, lines 68-88): a missing upstream TIR or
one below −1 yields the all-`None` dict; otherwise the upstream TIR is
trusted as TEA, TEM is derived by the compound monthly conversion and TNA is
`TEM·12`. -/
noncomputable def calculate_rates_from_api_tir (api_tir_as_tea : Option ℝ) :
    ApiRates :=
  match api_tir_as_tea with
  | none => ⟨none, none, none⟩
  | some tea =>
    if tea < -1 then ⟨none, none, none⟩
    else
      ⟨some (((1 + tea) ^ ((1 : ℝ) / 12) - 1) * 12), some tea,
        some ((1 + tea) ^ ((1 : ℝ) / 12) - 1)⟩

/-- `bond_return_ratio` of `CarryTradeService.calculate_carry_trade_returns`
(`src/services/carry_trade_service.py`, line 94): `final_payoff / price`. -/
def bond_return_quotient (final_payoff current_price : ℚ) : ℚ :=
  final_payoff / current_price

/-- The per-scenario carry return of `calculate_carry_trade_returns`
(`src/services/carry_trade_service.py`, line 100):
`bond_return_ratio · mep_rate / usd_rate − 1`. -/
def carry_return (factor mep_rate usd_rate : ℚ) : ℚ :=
  factor * mep_rate / usd_rate - 1

/-- `mep_breakeven` of `calculate_carry_trade_returns`
(`src/services/carry_trade_service.py`, line 109):
`mep_rate · bond_return_ratio`. -/
def mep_breakeven (mep_rate factor : ℚ) : ℚ := mep_rate * factor

/-- A Python `datetime.date`, with the `year`/`month`/`day` fields used by
`BONCERCalculator.estimate_future_cer`. -/
structure PyDate where
  year : ℤ
  month : ℤ
  day : ℤ

/-- Python date comparison `target <= today`: lexicographic on
(year, month, day). -/
def dateLe (a b : PyDate) : Bool :=
  if a.year < b.year then true
  else if b.year < a.year then false
  else if a.month < b.month then true
  else if b.month < a.month then false
  else decide (a.day ≤ b.day)

/-- The calendar-month difference
`(target.year − today.year)·12 + (target.month − today.month)` of
`estimate_future_cer` (`src/domain/boncer_calculator.py`, line 64). -/
def months_diff (today target : PyDate) : ℤ :=
  (target.year - today.year) * 12 + (target.month - today.month)

/-- `BONCERCalculator.estimate_future_cer`
(`src/domain/boncer_calculator.py`, lines 58-67): returns the current index
unchanged when `target ≤ today`, otherwise compounds the monthly inflation
rate over the calendar-month difference. -/
def estimate_future_cer (current_cer monthly_inflation : ℚ)
    (today target : PyDate) : ℚ :=
  if dateLe target today then current_cer
  else current_cer * (1 + monthly_inflation) ^ months_diff today target

/-- `CERCalculator.current_cer_index`
(`src/domain/cer_adjustment.py`, line 19). -/
noncomputable def current_cer_index : ℝ := 1350

/-- `CERCalculator.monthly_inflation_estimate`
(`src/domain/cer_adjustment.py`, line 20). -/
noncomputable def monthly_inflation_estimate : ℝ := 4 / 100

/-- `CERCalculator.estimate_cer_at_maturity`
(`src/domain/cer_adjustment.py`, lines 22-34):
`current_index · (1 + monthly_rate)^(days/30)`, with no guard for a
non-positive horizon. -/
noncomputable def estimate_cer_at_maturity (days_to_maturity : ℤ) : ℝ :=
  current_cer_index *
    (1 + monthly_inflation_estimate) ^ ((days_to_maturity : ℝ) / 30)

/-- Entering `calculate_tir` with a one-entry schedule dated after settlement
and a positive price reaches the Newton loop with guess `0.1` and 100
iterations of budget. -/
lemma calculate_tir_single (pw : ℚ → ℚ → ℚ) (dte sd : ℤ) (A price : ℚ)
    (hp : 0 < price) (hdsd : sd < dte) :
    calculate_tir pw [(dte, A)] price sd =
      tirLoop pw [(dte, A)] sd price (1 / 10) 100 := by
  unfold calculate_tir
  rw [if_neg]
  · simp only [List.filter_cons, List.filter_nil, decide_eq_true_eq, hdsd, if_true]
    rw [if_neg (by simp)]
  · rintro (h | h)
    · exact List.cons_ne_nil _ _ h
    · exact absurd h (not_le.2 hp)

/-- `npv` on a one-entry schedule 365 days after settlement: the exponent is
exactly 1, so the Decimal power is the identity. -/
lemma npv_single365 (dte sd : ℤ) (hd : dte - sd = 365) (A p g : ℚ) :
    npv qpowExact [(dte, A)] sd p g =
      if 1 + g ≤ 0 then none else some (A / (1 + g) - p) := by
  unfold npv
  simp only [List.map_cons, List.map_nil, List.sum_cons, List.sum_nil, add_zero, hd]
  norm_num [qpowExact]

/-- `d_npv` on a one-entry schedule 365 days after settlement: the exponent
plus one is exactly 2. -/
lemma d_npv_single365 (dte sd : ℤ) (hd : dte - sd = 365) (A g : ℚ) :
    d_npv qpowExact [(dte, A)] sd g =
      if 1 + g ≤ 0 then none else some (-(A / (1 + g) ^ 2)) := by
  unfold d_npv
  simp only [List.map_cons, List.map_nil, List.sum_cons, List.sum_nil, add_zero, hd]
  norm_num [qpowExact]
  simp [zpow_two, pow_two]

/-- One aborting iteration of the Newton loop: a guess with `1 + guess ≤ 0`
makes `npv` return `NaN`, which aborts the whole computation with failure. -/
lemma tirLoop_nan (pw : ℚ → ℚ → ℚ) (future : List CashFlow) (sd : ℤ)
    (p g : ℚ) (hg : 1 + g ≤ 0) (n : ℕ) :
    tirLoop pw future sd p g (n + 1) = none := by
  simp only [tirLoop]
  have h1 : npv pw future sd p g = none := by unfold npv; rw [if_pos hg]
  have h2 : d_npv pw future sd g = none := by unfold d_npv; rw [if_pos hg]
  rw [h1, h2]

/-- One converged iteration on the 365-day single-flow schedule:
`|NPV| < 1e-9` returns the current guess. -/
lemma tirLoop_single365_done (dte sd : ℤ) (hd : dte - sd = 365) (A p g : ℚ)
    (hg : 0 < 1 + g) (hv : |A / (1 + g) - p| < 1 / 1000000000) (n : ℕ) :
    tirLoop qpowExact [(dte, A)] sd p g (n + 1) = some g := by
  simp only [tirLoop]
  rw [npv_single365 dte sd hd, d_npv_single365 dte sd hd,
    if_neg (not_le.2 hg), if_neg (not_le.2 hg)]
  simp only [if_pos hv]

/-- One advancing iteration on the 365-day single-flow schedule: when the
tolerance is not yet met and the derivative is nonzero, the loop recurses on
the Newton update of the guess. -/
lemma tirLoop_single365_go (dte sd : ℤ) (hd : dte - sd = 365) (A p g : ℚ)
    (hg : 0 < 1 + g) (hv : ¬ |A / (1 + g) - p| < 1 / 1000000000)
    (hdv : ¬ -(A / (1 + g) ^ 2) = 0) (n : ℕ) :
    tirLoop qpowExact [(dte, A)] sd p g (n + 1) =
      tirLoop qpowExact [(dte, A)] sd p
        (g - (A / (1 + g) - p) / -(A / (1 + g) ^ 2)) n := by
  simp only [tirLoop]
  rw [npv_single365 dte sd hd, d_npv_single365 dte sd hd,
    if_neg (not_le.2 hg), if_neg (not_le.2 hg)]
  simp only [if_neg hv, if_neg hdv]

/-- Concrete solver run: one cash flow of 1000 one year (365 days) after
settlement, price 900.  Newton-Raphson from guess 0.1 converges at the
fourth iteration to 0.111111111111111. -/
lemma calc_tir_1000_900 :
    calculate_tir qpowExact [((365 : ℤ), (1000 : ℚ))] 900 0 =
      some (111111111111111 / 1000000000000000) := by
  rw [calculate_tir_single qpowExact 365 0 1000 900 (by norm_num) (by norm_num)]
  rw [tirLoop_single365_go 365 0 (by norm_num) 1000 900 (1 / 10) (by norm_num)
    (by rw [abs_of_pos (by norm_num)]; norm_num) (by norm_num)]
  norm_num
  rw [tirLoop_single365_go 365 0 (by norm_num) 1000 900 (111 / 1000) (by norm_num)
    (by rw [abs_of_pos (by norm_num)]; norm_num) (by norm_num)]
  norm_num
  rw [tirLoop_single365_go 365 0 (by norm_num) 1000 900 (1111111 / 10000000)
    (by norm_num) (by rw [abs_of_pos (by norm_num)]; norm_num) (by norm_num)]
  norm_num
  rw [tirLoop_single365_done 365 0 (by norm_num) 1000 900
    (111111111111111 / 1000000000000000) (by norm_num)
    (by rw [abs_of_pos (by norm_num)]; norm_num)]

/-- Concrete solver run: same schedule, price 10000/11 ≈ 909.09.  The NPV at
the initial guess 0.1 is exactly zero, so the solver converges immediately
to 0.1. -/
lemma calc_tir_1000_909 :
    calculate_tir qpowExact [((365 : ℤ), (1000 : ℚ))] (10000 / 11) 0 =
      some (1 / 10) := by
  rw [calculate_tir_single qpowExact 365 0 1000 (10000 / 11) (by norm_num)
    (by norm_num)]
  rw [tirLoop_single365_done 365 0 (by norm_num) 1000 (10000 / 11) (1 / 10)
    (by norm_num)
    (by rw [show (1000 : ℚ) / (1 + 1 / 10) - 10000 / 11 = 0 by norm_num, abs_zero]
        norm_num)]

/-- `qpowExact` at a natural-number exponent is the natural-number power. -/
lemma qpowExact_natCast (b : ℚ) (n : ℕ) : qpowExact b (n : ℚ) = b ^ n := by
  unfold qpowExact
  rw [Rat.num_natCast, zpow_natCast]

/-- `npv` on a one-entry schedule 21900 days (60 years) after settlement:
the exponent is exactly 60. -/
lemma npv_single21900 (dte sd : ℤ) (hd : dte - sd = 21900) (A p g : ℚ) :
    npv qpowExact [(dte, A)] sd p g =
      if 1 + g ≤ 0 then none else some (A / (1 + g) ^ (60 : ℕ) - p) := by
  unfold npv
  simp only [List.map_cons, List.map_nil, List.sum_cons, List.sum_nil, add_zero, hd]
  rw [show ((21900 : ℤ) : ℚ) / 365 = ((60 : ℕ) : ℚ) by norm_num, qpowExact_natCast]

/-- `d_npv` on a one-entry schedule 21900 days after settlement: the exponent
plus one is exactly 61. -/
lemma d_npv_single21900 (dte sd : ℤ) (hd : dte - sd = 21900) (A g : ℚ) :
    d_npv qpowExact [(dte, A)] sd g =
      if 1 + g ≤ 0 then none
      else some (-(A * 60 / (1 + g) ^ (61 : ℕ))) := by
  unfold d_npv
  simp only [List.map_cons, List.map_nil, List.sum_cons, List.sum_nil, add_zero, hd]
  rw [show ((21900 : ℤ) : ℚ) / 365 = ((60 : ℕ) : ℚ) by norm_num,
    show (((60 : ℕ) : ℚ)) + 1 = ((61 : ℕ) : ℚ) by norm_num, qpowExact_natCast]
  norm_num

/-- On the 60-year single-flow schedule, an iteration that is not converged
and whose Newton update overshoots below −100% kills the run: the next
iteration sees `1 + guess ≤ 0`, `npv` is `NaN`, and the solver fails. -/
lemma tirLoop_single21900_dies (dte sd : ℤ) (hd : dte - sd = 21900) (A p g : ℚ)
    (hg : 0 < 1 + g) (hv : ¬ |A / (1 + g) ^ (60 : ℕ) - p| < 1 / 1000000000)
    (hdv : ¬ -(A * 60 / (1 + g) ^ (61 : ℕ)) = 0)
    (hover : 1 + (g - (A / (1 + g) ^ (60 : ℕ) - p) /
      -(A * 60 / (1 + g) ^ (61 : ℕ))) ≤ 0) (n : ℕ) :
    tirLoop qpowExact [(dte, A)] sd p g (n + 2) = none := by
  have hstep : tirLoop qpowExact [(dte, A)] sd p g (n + 1 + 1) =
      tirLoop qpowExact [(dte, A)] sd p
        (g - (A / (1 + g) ^ (60 : ℕ) - p) / -(A * 60 / (1 + g) ^ (61 : ℕ)))
        (n + 1) := by
    simp only [tirLoop]
    rw [npv_single21900 dte sd hd, d_npv_single21900 dte sd hd,
      if_neg (not_le.2 hg), if_neg (not_le.2 hg)]
    simp only [if_neg hv, if_neg hdv]
  rw [show n + 2 = n + 1 + 1 from rfl, hstep, tirLoop_nan _ _ _ _ _ hover]

/-- Concrete failing run: a single positive cash flow of 1000 due 21900 days
(60 years) after settlement, price 999 ∈ (0, 1000).  The first Newton step
overshoots far below −100% (the next guess is ≈ −5.46), the next `npv`
evaluation is `NaN`, and `calculate_tir` fails even though the input is a
well-posed zero-coupon schedule. -/
lemma calc_tir_21900_999 :
    calculate_tir qpowExact [((21900 : ℤ), (1000 : ℚ))] 999 0 = none := by
  rw [calculate_tir_single qpowExact 21900 0 1000 999 (by norm_num) (by norm_num)]
  exact tirLoop_single21900_dies 21900 0 (by norm_num) 1000 999 (1 / 10)
    (by norm_num) (by rw [abs_of_neg (by norm_num)]; norm_num) (by norm_num)
    (by norm_num) 98

/-- Whatever rate the Newton loop returns was returned through the
convergence branch: its `npv` is a genuine value (not `NaN`) smaller than
the 1e-9 tolerance in absolute value.  Holds for every power function. -/
lemma tirLoop_some_imp (pw : ℚ → ℚ → ℚ) (future : List CashFlow) (sd : ℤ)
    (p : ℚ) :
    ∀ (n : ℕ) (g r : ℚ), tirLoop pw future sd p g n = some r →
      ∃ v, npv pw future sd p r = some v ∧ |v| < 1 / 1000000000 := by
  intro n
  induction n with
  | zero => intro g r h; simp [tirLoop] at h
  | succ n ih =>
    intro g r h
    simp only [tirLoop] at h
    cases hnv : npv pw future sd p g with
    | none => simp only [hnv] at h; cases h
    | some v =>
      cases hdv : d_npv pw future sd g with
      | none => simp only [hnv, hdv] at h; cases h
      | some dv =>
        simp only [hnv, hdv] at h
        by_cases h1 : |v| < 1 / 1000000000
        · rw [if_pos h1] at h
          obtain rfl := Option.some.inj h
          exact ⟨v, hnv, h1⟩
        · rw [if_neg h1] at h
          by_cases h2 : dv = 0
          · rw [if_pos h2] at h; exact absurd h (by simp)
          · rw [if_neg h2] at h; exact ih _ _ h

/-- An `npv` that produced a value (rather than `NaN`) was evaluated at a
rate strictly above −100%. -/
lemma npv_some_pos (pw : ℚ → ℚ → ℚ) (future : List CashFlow) (sd : ℤ)
    (p r v : ℚ) (h : npv pw future sd p r = some v) : 0 < 1 + r := by
  unfold npv at h
  by_cases hc : 1 + r ≤ 0
  · rw [if_pos hc] at h; cases h
  · exact lt_of_not_le hc

/-- A successful `calculate_tir` run is a successful Newton-loop run on the
filtered schedule. -/
lemma calculate_tir_some_loop (pw : ℚ → ℚ → ℚ) (cashflows : List CashFlow)
    (price : ℚ) (sd : ℤ) (r : ℚ)
    (h : calculate_tir pw cashflows price sd = some r) :
    tirLoop pw (cashflows.filter fun cf => decide (sd < cf.1)) sd price
      (1 / 10) 100 = some r := by
  unfold calculate_tir at h
  split_ifs at h with h1 h2
  exact h

/-- C1: whenever `calculate_tir` returns a rate `r`, that rate is above
−100% and the NPV at `r` — the sum over the cash flows strictly after
settlement of `amount / (1+r)^(days/365)` minus the price — is below the
1e-9 tolerance in absolute value.  Holds for every power function `pw`. -/
theorem calculate_tir_returns_only_small_npv (pw : ℚ → ℚ → ℚ)
    (cashflows : List CashFlow) (price : ℚ) (settlement : ℤ) (r : ℚ)
    (h : calculate_tir pw cashflows price settlement = some r) :
    0 < 1 + r ∧
      |((cashflows.filter fun cf => decide (settlement < cf.1)).map
          (fun cf => cf.2 / pw (1 + r) (((cf.1 - settlement : ℤ) : ℚ) / 365))).sum
        - price| < 1 / 1000000000 := by
  obtain ⟨v, hv, hlt⟩ :=
    tirLoop_some_imp pw (cashflows.filter fun cf => decide (settlement < cf.1))
      settlement price 100 (1 / 10) r (calculate_tir_some_loop _ _ _ _ _ h)
  have hpos := npv_some_pos _ _ _ _ _ _ hv
  refine ⟨hpos, ?_⟩
  unfold npv at hv
  rw [if_neg (not_le.2 hpos)] at hv
  rw [Option.some.inj hv]
  exact hlt

theorem calculate_tir_returns_only_small_npv_witness :
    0 < 1 + (111111111111111 / 1000000000000000 : ℚ) ∧
      |(([((365 : ℤ), (1000 : ℚ))].filter fun cf => decide ((0 : ℤ) < cf.1)).map
          (fun cf => cf.2 / qpowExact (1 + 111111111111111 / 1000000000000000)
            (((cf.1 - 0 : ℤ) : ℚ) / 365))).sum - 900| < 1 / 1000000000 :=
  calculate_tir_returns_only_small_npv qpowExact _ 900 0 _ calc_tir_1000_900

/-- C10: a rate returned by `calculate_tir` always satisfies `1 + r > 0`:
`npv` returns `NaN` whenever `1 + guess ≤ 0` and a `NaN` aborts the
iteration with failure before the guess can be returned. -/
theorem calculate_tir_rate_above_minus_one (pw : ℚ → ℚ → ℚ)
    (cashflows : List CashFlow) (price : ℚ) (settlement : ℤ) (r : ℚ)
    (h : calculate_tir pw cashflows price settlement = some r) :
    0 < 1 + r := by
  obtain ⟨v, hv, _⟩ :=
    tirLoop_some_imp pw (cashflows.filter fun cf => decide (settlement < cf.1))
      settlement price 100 (1 / 10) r (calculate_tir_some_loop _ _ _ _ _ h)
  exact npv_some_pos _ _ _ _ _ _ hv

theorem calculate_tir_rate_above_minus_one_witness :
    (0 : ℚ) < 1 + 111111111111111 / 1000000000000000 :=
  calculate_tir_rate_above_minus_one qpowExact [((365 : ℤ), (1000 : ℚ))] 900 0 _
    calc_tir_1000_900

/-- C3: `calculate_tir` values only the cash flows dated strictly after the
settlement date (its result on any non-empty schedule equals its result on
the filtered schedule), and a non-empty schedule whose entries all fall on
or before settlement — in particular a single entry exactly on settlement —
yields a failure, never a fabricated rate. -/
theorem calculate_tir_excludes_past_cashflows (pw : ℚ → ℚ → ℚ)
    (cashflows : List CashFlow) (price : ℚ) (settlement : ℤ) :
    (cashflows ≠ [] →
      calculate_tir pw cashflows price settlement =
        calculate_tir pw
          (cashflows.filter fun cf => decide (settlement < cf.1)) price
          settlement) ∧
    ((∀ cf ∈ cashflows, cf.1 ≤ settlement) → cashflows ≠ [] →
      calculate_tir pw cashflows price settlement = none) := by
  constructor
  · intro hne
    by_cases hp : price ≤ 0
    · unfold calculate_tir
      rw [if_pos (Or.inr hp), if_pos (Or.inr hp)]
    · by_cases hfil :
        cashflows.filter (fun cf => decide (settlement < cf.1)) = []
      · unfold calculate_tir
        rw [if_neg (by rintro (h | h); exact hne h; exact hp h), if_pos hfil,
          if_pos (Or.inl hfil)]
      · unfold calculate_tir
        rw [if_neg (by rintro (h | h); exact hne h; exact hp h), if_neg hfil,
          if_neg (by rintro (h | h); exact hfil h; exact hp h)]
        rw [List.filter_filter]
        simp only [Bool.and_self]
        rw [if_neg hfil]
  · intro hall hne
    have hfil : cashflows.filter (fun cf => decide (settlement < cf.1)) = [] := by
      rw [List.filter_eq_nil_iff]
      intro a ha
      simpa using not_lt.2 (hall a ha)
    unfold calculate_tir
    by_cases hp : price ≤ 0
    · rw [if_pos (Or.inr hp)]
    · rw [if_neg (by rintro (h | h); exact hne h; exact hp h), if_pos hfil]

theorem calculate_tir_excludes_past_cashflows_witness :
    calculate_tir qpowExact [((0 : ℤ), (1000 : ℚ))] 100 0 = none :=
  (calculate_tir_excludes_past_cashflows qpowExact [((0 : ℤ), (1000 : ℚ))] 100
    0).2 (by simp) (by simp)

/-- Geometric-decay bound used for the Newton convergence argument:
for `0 ≤ e < 1` and any `M`, `e^M · (1 + M(1−e)) ≤ 1`. -/
lemma geom_decay (e : ℚ) (h0 : 0 ≤ e) (h1 : e < 1) :
    ∀ M : ℕ, e ^ M * (1 + (M : ℚ) * (1 - e)) ≤ 1 := by
  intro M
  induction M with
  | zero => simp
  | succ M ih =>
    have hpow : e ^ (M + 1) ≤ 1 := pow_le_one₀ h0 h1.le
    have h1e : (0 : ℚ) ≤ 1 - e := by linarith
    push_cast
    calc e ^ (M + 1) * (1 + ((M : ℚ) + 1) * (1 - e))
        = e * (e ^ M * (1 + (M : ℚ) * (1 - e))) + e ^ (M + 1) * (1 - e) := by
          ring
      _ ≤ e * 1 + 1 * (1 - e) :=
          add_le_add (mul_le_mul_of_nonneg_left ih h0)
            (mul_le_mul_of_nonneg_right hpow h1e)
      _ = 1 := by ring

/-- Newton-Raphson on a single cash flow of amount `A > 0` due 365 days
after settlement, price `p > 0`: writing `d(g) = 1 − (p/A)(1+g)`, one Newton
step squares `d`, and as soon as some iterate satisfies
`p·|d|^(2^k) < 1e-9·(1 − |d|^(2^k))` within the fuel budget the loop
returns a rate. -/
lemma tirLoop_single365_converges (dte sd : ℤ) (hd : dte - sd = 365) (A p : ℚ)
    (hA : 0 < A) (hp : 0 < p) :
    ∀ (n : ℕ) (g : ℚ), 0 < 1 + g → |1 - p / A * (1 + g)| < 1 →
      (∃ k, k < n ∧
        p * |1 - p / A * (1 + g)| ^ 2 ^ k <
          1 / 1000000000 * (1 - |1 - p / A * (1 + g)| ^ 2 ^ k)) →
      (tirLoop qpowExact [(dte, A)] sd p g n).isSome := by
  intro n
  induction n with
  | zero =>
    rintro g _ _ ⟨k, hk, _⟩
    exact absurd hk (Nat.not_lt_zero k)
  | succ n ih =>
    rintro g hx hdabs ⟨k, hkn, hconv⟩
    have hA0 : A ≠ 0 := ne_of_gt hA
    have hx0 : (1 + g) ≠ 0 := ne_of_gt hx
    have hd1 : 1 - p / A * (1 + g) < 1 := (abs_lt.1 hdabs).2
    have hdm1 : -1 < 1 - p / A * (1 + g) := (abs_lt.1 hdabs).1
    have h1d : 0 < 1 - (1 - p / A * (1 + g)) := by linarith
    have hval : A / (1 + g) - p =
        p * (1 - p / A * (1 + g)) / (1 - (1 - p / A * (1 + g))) := by
      field_simp
      ring
    by_cases hc : |A / (1 + g) - p| < 1 / 1000000000
    · rw [tirLoop_single365_done dte sd hd A p g hx hc]
      simp
    · have hdvne : ¬ -(A / (1 + g) ^ 2) = 0 := by
        have hpos : 0 < A / (1 + g) ^ 2 := div_pos hA (by positivity)
        intro hE
        rw [neg_eq_zero] at hE
        exact absurd hE (ne_of_gt hpos)
      rw [tirLoop_single365_go dte sd hd A p g hx hc hdvne]
      have hstep : g - (A / (1 + g) - p) / -(A / (1 + g) ^ 2) =
          (1 + g) * (1 + (1 - p / A * (1 + g))) - 1 := by
        field_simp
        ring
      rw [hstep]
      have hd' : 1 - p / A * (1 + ((1 + g) * (1 + (1 - p / A * (1 + g))) - 1)) =
          (1 - p / A * (1 + g)) ^ 2 := by
        field_simp
        ring
      apply ih
      · have hnew : 0 < 1 + (1 - p / A * (1 + g)) := by linarith
        calc (0 : ℚ) < (1 + g) * (1 + (1 - p / A * (1 + g))) := mul_pos hx hnew
          _ = 1 + ((1 + g) * (1 + (1 - p / A * (1 + g))) - 1) := by ring
      · rw [hd', abs_pow]
        exact pow_lt_one₀ (abs_nonneg _) hdabs two_ne_zero
      · have hk0 : k ≠ 0 := by
          rintro rfl
          apply hc
          rw [hval, abs_div, abs_of_pos h1d, abs_mul, abs_of_pos hp,
            div_lt_iff₀ h1d]
          have hle : 1 - p / A * (1 + g) ≤ |1 - p / A * (1 + g)| :=
            le_abs_self _
          simp only [pow_zero, pow_one] at hconv
          linarith
        obtain ⟨k', rfl⟩ := Nat.exists_eq_succ_of_ne_zero hk0
        refine ⟨k', by omega, ?_⟩
        rw [hd', abs_pow, ← pow_mul]
        have h2 : 2 * 2 ^ k' = 2 ^ (k' + 1) := by
          rw [pow_succ]; ring
        rw [h2]
        exact hconv


/-- After enough squarings the Newton residual is below tolerance: for an
error `e ∈ [0,1)` with `1 − e > (9/10)(p/A)`, a price `0 < p` and an amount
`0 < A ≤ 10^9`, every `M ≥ 2·10^18` satisfies
`p·e^M < 1e-9·(1 − e^M)`. -/
lemma newton_tail_small (p A e : ℚ) (hp : 0 < p) (hA0 : 0 < A)
    (hAle : A ≤ 1000000000) (he0 : 0 ≤ e) (he1 : e < 1)
    (hbound : 9 / 10 * (p / A) < 1 - e) (M : ℕ)
    (hM : (2000000000000000000 : ℚ) ≤ (M : ℚ)) :
    p * e ^ M < 1 / 1000000000 * (1 - e ^ M) := by
  have hgeo := geom_decay e he0 he1 M
  have h1e : (0 : ℚ) < 1 - e := by linarith
  have hMpos : (0 : ℚ) < (M : ℚ) := lt_of_lt_of_le (by norm_num) hM
  have hS : (0 : ℚ) < 1 + (M : ℚ) * (1 - e) := by positivity
  have h2 : p / 1000000000 ≤ p / A := by
    rw [div_le_div_iff₀ (by norm_num) hA0]
    nlinarith
  have hkey : p < 1 / 1000000000 * (M : ℚ) * (1 - e) := by
    have step1 : 1 / 1000000000 * (M : ℚ) * (9 / 10 * (p / A)) ≤
        1 / 1000000000 * (M : ℚ) * (1 - e) :=
      mul_le_mul_of_nonneg_left hbound.le (by positivity)
    have step2 : 1 / 1000000000 * (M : ℚ) * (9 / 10 * (p / 1000000000)) ≤
        1 / 1000000000 * (M : ℚ) * (9 / 10 * (p / A)) :=
      mul_le_mul_of_nonneg_left
        (mul_le_mul_of_nonneg_left h2 (by norm_num)) (by positivity)
    have step3 : 1 / 1000000000 * (2000000000000000000 : ℚ) *
          (9 / 10 * (p / 1000000000)) ≤
        1 / 1000000000 * (M : ℚ) * (9 / 10 * (p / 1000000000)) :=
      mul_le_mul_of_nonneg_right
        (mul_le_mul_of_nonneg_left hM (by norm_num)) (by positivity)
    have step4 : 1 / 1000000000 * (2000000000000000000 : ℚ) *
        (9 / 10 * (p / 1000000000)) = 9 / 5 * p := by ring
    nlinarith
  have l1 : p * e ^ M * (1 + (M : ℚ) * (1 - e)) ≤ p := by
    rw [mul_assoc]
    calc p * (e ^ M * (1 + (M : ℚ) * (1 - e))) ≤ p * 1 :=
          mul_le_mul_of_nonneg_left hgeo hp.le
      _ = p := mul_one p
  have expand : 1 / 1000000000 * (1 - e ^ M) * (1 + (M : ℚ) * (1 - e)) -
      1 / 1000000000 * (M : ℚ) * (1 - e) =
      1 / 1000000000 * (1 - e ^ M * (1 + (M : ℚ) * (1 - e))) := by
    ring
  have l2 : 1 / 1000000000 * (M : ℚ) * (1 - e) ≤
      1 / 1000000000 * (1 - e ^ M) * (1 + (M : ℚ) * (1 - e)) := by
    nlinarith [hgeo, expand]
  have hfin : p * e ^ M * (1 + (M : ℚ) * (1 - e)) <
      1 / 1000000000 * (1 - e ^ M) * (1 + (M : ℚ) * (1 - e)) := by
    calc p * e ^ M * (1 + (M : ℚ) * (1 - e)) ≤ p := l1
      _ < 1 / 1000000000 * (M : ℚ) * (1 - e) := hkey
      _ ≤ _ := l2
  exact (mul_lt_mul_right hS).1 hfin

/-- C4 (amended): for a single positive cash flow dated exactly 365 days
after settlement with amount at most 10^9 and any price strictly between 0
and that amount, `calculate_tir` converges and returns a rate within its
100-iteration budget. -/
theorem calculate_tir_single365_total (sd : ℤ) (A p : ℚ) (hA0 : 0 < A)
    (hAle : A ≤ 1000000000) (hp : 0 < p) (hpA : p < A) :
    (calculate_tir qpowExact [(sd + 365, A)] p sd).isSome := by
  rw [calculate_tir_single qpowExact (sd + 365) sd A p hp (by omega)]
  apply tirLoop_single365_converges (sd + 365) sd (by omega) A p hA0 hp 100
    (1 / 10)
  · norm_num
  · have hq0 : 0 < p / A := div_pos hp hA0
    have hq1 : p / A < 1 := (div_lt_one hA0).2 hpA
    rw [abs_lt]
    constructor <;> nlinarith
  · have hq0 : 0 < p / A := div_pos hp hA0
    have hq1 : p / A < 1 := (div_lt_one hA0).2 hpA
    have he0 : (0 : ℚ) ≤ |1 - p / A * (1 + 1 / 10)| := abs_nonneg _
    have he1 : |1 - p / A * (1 + 1 / 10)| < 1 := by
      rw [abs_lt]; constructor <;> nlinarith
    have hbound : 9 / 10 * (p / A) < 1 - |1 - p / A * (1 + 1 / 10)| := by
      have habs : |1 - p / A * (1 + 1 / 10)| < 1 - 9 / 10 * (p / A) := by
        rw [abs_lt]; constructor <;> nlinarith
      linarith
    refine ⟨62, by norm_num, ?_⟩
    refine newton_tail_small p A _ hp hA0 hAle he0 he1 hbound (2 ^ 62) ?_
    rw [show ((2 ^ 62 : ℕ) : ℚ) = 2 ^ 62 by push_cast; ring]
    norm_num

theorem calculate_tir_single365_total_witness :
    (calculate_tir qpowExact [((0 : ℤ) + 365, (1000 : ℚ))] 900 0).isSome :=
  calculate_tir_single365_total 0 1000 900 (by norm_num) (by norm_num)
    (by norm_num) (by norm_num)

/-- C4 counterexample: the claim "the solver never fails for a single
positive future cash flow and a price in (0, amount)" is false.  With a
single cash flow of 1000 dated 21900 days after settlement and price 999
(strictly between 0 and 1000), `calculate_tir` fails: the first Newton step
overshoots below −100% and the run aborts on `NaN`. -/
theorem calculate_tir_single_flow_can_fail :
    calculate_tir qpowExact [((21900 : ℤ), (1000 : ℚ))] 999 0 = none ∧
      (0 : ℚ) < 999 ∧ (999 : ℚ) < 1000 ∧ (0 : ℤ) < 21900 :=
  ⟨calc_tir_21900_999, by norm_num, by norm_num, by norm_num⟩

/-- Evaluation of the compound branch of
`calculate_irr_from_price_and_payoff` on valid inputs: the TIR field holds
the zero-coupon closed form `(payoff/price)^(365/days) − 1`. -/
lemma irr_compound_TIR (p fp : ℝ) (days : ℤ) (hp : 0 < p) (hfp : 0 < fp)
    (hd : 0 < days) :
    (calculate_irr_from_price_and_payoff p fp days .compound).TIR =
      some ((fp / p) ^ ((365 : ℝ) / (days : ℝ)) - 1) := by
  unfold calculate_irr_from_price_and_payoff
  rw [if_neg, if_neg]
  · rfl
  · simp only [irrTir]
    have hpow : 0 < (fp / p) ^ ((365 : ℝ) / (days : ℝ)) :=
      Real.rpow_pos_of_pos (div_pos hfp hp) _
    rw [not_lt]
    linarith
  · push_neg
    exact ⟨hp, hfp, hd⟩

/-- C2: on the known one-year zero-coupon case (single cash flow of 1000 at
365 days, price 900) the iterative solver and the compound closed form
agree: both produce a TIR within 1e-9 of `1000/900 − 1`. -/
theorem solver_matches_closed_form_one_year :
    (∃ r : ℚ, calculate_tir qpowExact [((365 : ℤ), (1000 : ℚ))] 900 0 = some r ∧
      |r - (1000 / 900 - 1)| < 1 / 1000000000) ∧
    (∃ t : ℝ,
      (calculate_irr_from_price_and_payoff 900 1000 365 .compound).TIR =
        some t ∧
      |t - (1000 / 900 - 1)| < 1 / 1000000000) := by
  constructor
  · exact ⟨_, calc_tir_1000_900, by rw [abs_of_neg (by norm_num)]; norm_num⟩
  · rw [irr_compound_TIR 900 1000 365 (by norm_num) (by norm_num) (by norm_num)]
    refine ⟨_, rfl, ?_⟩
    rw [show ((365 : ℝ) / ((365 : ℤ) : ℝ)) = 1 by norm_num, Real.rpow_one]
    rw [show ((1000 : ℝ) / 900 - 1 - (1000 / 900 - 1)) = 0 by ring]
    norm_num

/-- C5: `calculate_irr_from_price_and_payoff` returns either all four of
TIR, TEA, TEM, TNA or none of them, and the market-supplied-TIR path
`_calculate_rates_from_api_tir` obeys the same all-or-nothing contract on
the three fields it produces. -/
theorem yield_bundle_all_or_nothing :
    (∀ (cp fp : ℝ) (days : ℤ) (method : IrrMethod),
      (∃ a b c d, calculate_irr_from_price_and_payoff cp fp days method =
        ⟨some a, some b, some c, some d⟩) ∨
      calculate_irr_from_price_and_payoff cp fp days method =
        ⟨none, none, none, none⟩) ∧
    (∀ t : Option ℝ,
      (∃ a b c, calculate_rates_from_api_tir t = ⟨some a, some b, some c⟩) ∨
      calculate_rates_from_api_tir t = ⟨none, none, none⟩) := by
  constructor
  · intro cp fp days method
    unfold calculate_irr_from_price_and_payoff
    split_ifs
    · right; rfl
    · right; rfl
    · left; exact ⟨_, _, _, _, rfl⟩
  · intro t
    cases t with
    | none => right; rfl
    | some tea =>
      simp only [calculate_rates_from_api_tir]
      split_ifs
      · right; rfl
      · left; exact ⟨_, _, _, rfl⟩

/-- C6: for a fixed payoff and maturity, the compound closed-form TIR is
strictly decreasing in the price over `(0, payoff)`; and on the concrete
one-year schedule the iterative solver shows the same strict decrease. -/
theorem tir_strictly_decreasing_in_price :
    (∀ (fp p1 p2 : ℝ) (days : ℤ), 0 < p1 → p1 < p2 → p2 < fp → 0 < days →
      ∃ t1 t2,
        (calculate_irr_from_price_and_payoff p1 fp days .compound).TIR =
          some t1 ∧
        (calculate_irr_from_price_and_payoff p2 fp days .compound).TIR =
          some t2 ∧
        t2 < t1) ∧
    (∃ ra rb,
      calculate_tir qpowExact [((365 : ℤ), (1000 : ℚ))] 900 0 = some ra ∧
      calculate_tir qpowExact [((365 : ℤ), (1000 : ℚ))] (10000 / 11) 0 =
        some rb ∧
      rb < ra) := by
  constructor
  · intro fp p1 p2 days h1 h12 h2f hd
    have hp2 : 0 < p2 := h1.trans h12
    have hfp : 0 < fp := hp2.trans h2f
    refine ⟨_, _, irr_compound_TIR p1 fp days h1 hfp hd,
      irr_compound_TIR p2 fp days hp2 hfp hd, ?_⟩
    have hexp : 0 < (365 : ℝ) / (days : ℝ) := by
      have : (0 : ℝ) < (days : ℝ) := by exact_mod_cast hd
      positivity
    have hlt : fp / p2 < fp / p1 := div_lt_div_of_pos_left hfp h1 h12
    have hmono := Real.rpow_lt_rpow (le_of_lt (div_pos hfp hp2)) hlt hexp
    linarith
  · exact ⟨_, _, calc_tir_1000_900, calc_tir_1000_909, by norm_num⟩

theorem tir_strictly_decreasing_in_price_witness :
    ∃ t1 t2,
      (calculate_irr_from_price_and_payoff 900 1000 365 .compound).TIR =
        some t1 ∧
      (calculate_irr_from_price_and_payoff 950 1000 365 .compound).TIR =
        some t2 ∧
      t2 < t1 :=
  tir_strictly_decreasing_in_price.1 1000 900 950 365 (by norm_num)
    (by norm_num) (by norm_num) (by norm_num)

/-- C7: the carry-trade scenario return evaluated at the computed breakeven
FX rate is exactly zero (and hence within the 1e-6 tolerance) for every
positive price, payoff and current MEP rate. -/
theorem carry_breakeven_zero (price fp mep : ℚ) (hp : 0 < price)
    (hf : 0 < fp) (hm : 0 < mep) :
    carry_return (bond_return_quotient fp price) mep
      (mep_breakeven mep (bond_return_quotient fp price)) = 0 := by
  unfold carry_return mep_breakeven bond_return_quotient
  rw [sub_eq_zero]
  rw [div_eq_one_iff_eq (by positivity)]
  ring

theorem carry_breakeven_zero_witness :
    carry_return (bond_return_quotient 110 100) 1200
      (mep_breakeven 1200 (bond_return_quotient 110 100)) = 0 :=
  carry_breakeven_zero 100 110 1200 (by norm_num) (by norm_num) (by norm_num)

/-- C8 counterexample: `estimate_cer_at_maturity` is not the identity on a
non-positive horizon.  At `days_to_maturity = −30` (a past horizon) it
deflates the index by one month of inflation instead of returning it
unchanged. -/
theorem estimate_cer_at_maturity_past_changes_index :
    estimate_cer_at_maturity (-30) ≠ current_cer_index ∧ (-30 : ℤ) ≤ 0 := by
  constructor
  · unfold estimate_cer_at_maturity current_cer_index monthly_inflation_estimate
    rw [show (((-30 : ℤ) : ℝ) / 30) = ((-1 : ℤ) : ℝ) by norm_num,
      Real.rpow_intCast]
    norm_num
  · norm_num

/-- C8 (amended): `estimate_future_cer` returns the current index unchanged
for every `target_date ≤ today` regardless of the inflation assumption, and
`estimate_cer_at_maturity` is a no-op at a horizon of exactly zero days —
but not, as the original claim says, at negative horizons. -/
theorem cer_projection_zero_horizon :
    (∀ (current_cer monthly_inflation : ℚ) (today target : PyDate),
      dateLe target today = true →
      estimate_future_cer current_cer monthly_inflation today target =
        current_cer) ∧
    estimate_cer_at_maturity 0 = current_cer_index := by
  constructor
  · intro c i today target h
    unfold estimate_future_cer
    rw [if_pos h]
  · unfold estimate_cer_at_maturity
    rw [show (((0 : ℤ) : ℝ) / 30) = (0 : ℝ) by norm_num, Real.rpow_zero,
      mul_one]

theorem cer_projection_zero_horizon_witness :
    estimate_future_cer 1350 (1 / 25) ⟨2025, 10, 12⟩ ⟨2025, 10, 12⟩ = 1350 :=
  cer_projection_zero_horizon.1 1350 (1 / 25) ⟨2025, 10, 12⟩ ⟨2025, 10, 12⟩
    (by decide)

/-- C9 counterexample: the claim says the TEA-to-TEM conversion returns 0
for `tea ≤ −1`, but `convert_tirea_to_tem` returns −1 there: at `tea = −2`
the result is −1, not 0. -/
theorem convert_tirea_to_tem_clamps_to_neg_one :
    convert_tirea_to_tem (-2) = -1 ∧ convert_tirea_to_tem (-2) ≠ 0 ∧
      ((-2 : ℝ) ≤ -1) := by
  have h : convert_tirea_to_tem (-2) = -1 := by
    unfold convert_tirea_to_tem
    rw [if_pos (by norm_num)]
  exact ⟨h, by rw [h]; norm_num, by norm_num⟩

/-- C9 (amended): for `tea ≤ −1` the float conversion
`calculate_tem_from_tea` returns the defensive 0 while the Decimal
conversion `convert_tirea_to_tem` returns −1; for `tea > −1` both return
`(1+tea)^(1/12) − 1`. -/
theorem tem_from_tea_clamping :
    (∀ tea : ℝ, tea ≤ -1 →
      calculate_tem_from_tea tea = 0 ∧ convert_tirea_to_tem tea = -1) ∧
    (∀ tea : ℝ, -1 < tea →
      calculate_tem_from_tea tea = (1 + tea) ^ ((1 : ℝ) / 12) - 1 ∧
      convert_tirea_to_tem tea = (1 + tea) ^ ((1 : ℝ) / 12) - 1) := by
  constructor
  · intro tea h
    constructor
    · unfold calculate_tem_from_tea; rw [if_pos h]
    · unfold convert_tirea_to_tem; rw [if_pos h]
  · intro tea h
    constructor
    · unfold calculate_tem_from_tea; rw [if_neg (not_le.2 h)]
    · unfold convert_tirea_to_tem; rw [if_neg (not_le.2 h)]

theorem tem_from_tea_clamping_witness :
    calculate_tem_from_tea (-2) = 0 ∧ convert_tirea_to_tem (-2) = -1 :=
  tem_from_tea_clamping.1 (-2) (by norm_num)
